import Mathlib

/-!
Verification development for the hybrid note-recommendation engine.

The engine's Python services are embedded shallowly:

* `ab_test_service.py` becomes a pure state-transformer over a record of the
  two durable artefacts (the append-only like-event log and the counters
  record), with explicit failure flags standing for IO exceptions at each
  file write.
* `graph_service.py` queries become list computations over an explicit
  `Store` holding the note nodes, LIKED edges, HAS_TAG edges and
  IN_CATEGORY edges.  Cypher `ORDER BY ... DESC` is modelled as a stable
  descending sort over the store's row order.
* `recommendation_service.py` becomes a pure ranking pipeline; the external
  neural scorer and the per-note uniform random draw are inputs
  (`gnn : String → Option ℝ`, `rand : String → ℝ`), mirroring the fact that
  the model weights and the RNG live outside the algorithm.
* Python floats are modelled as real numbers; `datetime` parsing is
  abstracted into the outcome `DateParse` (missing, unparsable, or a number
  of days since creation at request time), which is exactly the case split
  the code performs.

Definitions named `spec...` are NOT translated from the code: they follow
the specification's words, so that a code definition can be compared with
them in refinement statements.
-/

namespace NHRE

/-- Stable insertion for a descending sort: `a` goes in front of the first
element whose key is strictly smaller, so earlier elements win ties.  This is
the tie behaviour of Python's stable `list.sort(reverse=True)` and the model
used for Cypher `ORDER BY ... DESC` over the store's row order. -/
noncomputable def insertDesc {α : Type} (key : α → ℝ) (a : α) : List α → List α
  | [] => [a]
  | b :: l => if key b < key a then a :: b :: l else b :: insertDesc key a l

/-- Stable descending sort by a real-valued key (insertion sort). -/
noncomputable def sortDesc {α : Type} (key : α → ℝ) (l : List α) : List α :=
  l.foldr (insertDesc key) []

theorem insertDesc_perm {α : Type} (key : α → ℝ) (a : α) (l : List α) :
    (insertDesc key a l).Perm (a :: l) := by
  induction l with
  | nil => simp [insertDesc]
  | cons b t ih =>
    by_cases h : key b < key a
    · simp [insertDesc, h]
    · simp only [insertDesc, if_neg h]
      exact (ih.cons b).trans (List.Perm.swap a b t)

theorem sortDesc_perm {α : Type} (key : α → ℝ) (l : List α) :
    (sortDesc key l).Perm l := by
  induction l with
  | nil => simp [sortDesc]
  | cons a t ih =>
    exact (insertDesc_perm key a (sortDesc key t)).trans (ih.cons a)

theorem mem_sortDesc {α : Type} (key : α → ℝ) (l : List α) (x : α) :
    x ∈ sortDesc key l ↔ x ∈ l :=
  (sortDesc_perm key l).mem_iff

theorem insertDesc_map {α β : Type} (f : α → β) (key : β → ℝ) (a : α)
    (l : List α) :
    insertDesc key (f a) (l.map f) = (insertDesc (fun x => key (f x)) a l).map f := by
  induction l with
  | nil => simp [insertDesc]
  | cons b t ih =>
    by_cases h : key (f b) < key (f a)
    · simp [insertDesc, h]
    · simp [insertDesc, h, ih]

theorem sortDesc_map {α β : Type} (f : α → β) (key : β → ℝ) (l : List α) :
    sortDesc key (l.map f) = (sortDesc (fun x => key (f x)) l).map f := by
  induction l with
  | nil => simp [sortDesc]
  | cons a t ih =>
    simp only [sortDesc, List.map_cons, List.foldr_cons]
    rw [show (List.map f t).foldr (insertDesc key) [] = sortDesc key (t.map f) from rfl,
      ih, insertDesc_map]
    rfl

/-- Python's `max` over a list of floats (nonempty in every call site; the
empty case is unreachable because the callers return early on empty input). -/
def pymax (l : List ℝ) : ℝ :=
  match l with
  | [] => 0
  | h :: t => t.foldl max h

theorem le_foldl_max (l : List ℝ) (a : ℝ) : a ≤ l.foldl max a := by
  induction l generalizing a with
  | nil => simp
  | cons b t ih => exact le_trans (le_max_left a b) (by simpa using ih (max a b))

theorem mem_le_foldl_max (l : List ℝ) (a x : ℝ) (hx : x ∈ l) :
    x ≤ l.foldl max a := by
  induction l generalizing a with
  | nil => simp at hx
  | cons b t ih =>
    rcases List.mem_cons.mp hx with rfl | hx
    · exact le_trans (le_max_right a x) (by simpa using le_foldl_max t (max a x))
    · simpa using ih (max a b) hx

theorem mem_le_pymax (l : List ℝ) (x : ℝ) (hx : x ∈ l) : x ≤ pymax l := by
  match l with
  | [] => simp at hx
  | h :: t =>
    rcases List.mem_cons.mp hx with rfl | hx
    · exact le_foldl_max t x
    · exact mem_le_foldl_max t h x hx

/-- Python's `max(...) or 1`: a zero maximum (falsy float) is replaced by 1
before it is used as a normalisation divisor. -/
noncomputable def orOne (x : ℝ) : ℝ := if x = 0 then 1 else x

/-! ## Experiment Controller (`services/ab_test_service.py`)

Timestamps (`datetime.now()`, the configured threshold, `last_updated`) are
modelled as integers under the usual total order of naive datetimes. -/

/-- A/B test group, `models/schemas.py`: `ABTestGroup`. -/
inductive ABGroup where
  | A
  | B
deriving DecidableEq, Repr

/-- Counters record persisted at `ab_test_counts_path`: the two like counts
plus `last_updated`. -/
structure Counts where
  a : ℕ
  b : ℕ
  last_updated : ℤ
deriving DecidableEq, Repr

/-- One like-event record (`models/schemas.py`: `LikeRecord`; the redundant
`liked_note_id` field duplicates `note_id` and is dropped). -/
structure LikeEvent where
  user_id : String
  note_id : String
  ab_group : ABGroup
  timestamp : ℤ
deriving DecidableEq, Repr

/-- Contents of the likes-data file at `ab_test_data_path`: absent, present
but not valid JSON, or a valid JSON list of like events. -/
inductive LikesFile where
  | missing
  | corrupt
  | valid (events : List LikeEvent)
deriving DecidableEq, Repr

/-- The two durable artefacts owned by `ABTestService`. -/
structure ABState where
  likesFile : LikesFile
  counts : Counts
deriving DecidableEq, Repr

/-- `ABTestService._load_likes_data`: a missing file or a `JSONDecodeError`
yields the empty list; otherwise the parsed list. -/
def load_likes_data : LikesFile → List LikeEvent
  | .missing => []
  | .corrupt => []
  | .valid l => l

/-- `ABTestService._increment_count`: bumps the counter selected by the group
(`A` the first, anything else the second) and stamps `last_updated`. -/
def increment_count (c : Counts) (g : ABGroup) (now : ℤ) : Counts :=
  match g with
  | .A => { a := c.a + 1, b := c.b, last_updated := now }
  | .B => { a := c.a, b := c.b + 1, last_updated := now }

/-- Result of a `record_like` call: `ok` is false when an IO exception
propagated to the caller, `state` is what the two files hold afterwards. -/
structure RecordResult where
  ok : Bool
  state : ABState
deriving DecidableEq, Repr

/-- `ABTestService.record_like`: loads the likes file (defaulting to `[]`),
appends the new event, rewrites the file, then separately reads, increments
and rewrites the counters file.  `failSaveLikes` and `failSaveCounts` model an
IO exception at the corresponding file write: the exception propagates and
every write already performed stays on disk.  `now` stands for
`datetime.now()` (used both for the event timestamp and `last_updated`). -/
def record_like (st : ABState) (user_id note_id : String) (g : ABGroup)
    (now : ℤ) (failSaveLikes failSaveCounts : Bool) : RecordResult :=
  let ev : LikeEvent := { user_id := user_id, note_id := note_id, ab_group := g, timestamp := now }
  if failSaveLikes then { ok := false, state := st }
  else
    let st1 : ABState := { st with likesFile := .valid (load_likes_data st.likesFile ++ [ev]) }
    if failSaveCounts then { ok := false, state := st1 }
    else { ok := true, state := { st1 with counts := increment_count st1.counts g now } }

/-- `ABTestService.get_winning_group`: `None` strictly before the configured
threshold, else `A` exactly when the A count strictly exceeds the B count,
and `B` otherwise (ties included). -/
def get_winning_group (c : Counts) (now threshold : ℤ) : Option ABGroup :=
  if now < threshold then none
  else if c.b < c.a then some .A
  else some .B

/-! ## Graph store and `services/graph_service.py`

A `Note` node carries the scalar attributes the queries read.  Attributes a
node may lack in Neo4j are `Option`-valued; `note_id` is total because every
node is MERGEd on it, and `like_count` is total because `upsert_note` sets
`n.like_count = COALESCE(n.like_count, 0)` and the `/like` endpoint only ever
increments it, so it is never null.  The creation date enters as the outcome
of the date handling in `_calculate_recency_scores`: either the field is
empty/absent, or parsing raised, or it parsed and `(now - created).days`
equals the given whole number of days. -/

/-- Outcome of reading and parsing a note's `created_date` at request time. -/
inductive DateParse where
  | missing
  | unparsable
  | parsed (daysOld : ℤ)
deriving DecidableEq, Repr

/-- A Note node's attributes as the engine's queries return them. -/
structure Note where
  note_id : String
  title : Option String
  rating : Option ℝ
  download_count : Option ℝ
  view_count : Option ℝ
  comment_count : Option ℝ
  like_count : ℝ
  created : DateParse

/-- The property-graph snapshot a request sees: note rows (in the store's
row order), LIKED edges (user_id, note_id), HAS_TAG edges (note_id, tag) and
IN_CATEGORY edges (note_id, category name). -/
structure Store where
  notes : List Note
  likes : List (String × String)
  noteTags : List (String × String)
  noteCats : List (String × String)

/-- Note ids the user has LIKED (the `(u)-[:LIKED]->(n)` pattern). -/
def likedNoteIds (s : Store) (user : String) : List String :=
  (s.likes.filter fun p => p.1 = user).map Prod.snd

/-- Tags of a note (the `(n)-[:HAS_TAG]->(t)` pattern). -/
def noteTagsOf (s : Store) (id : String) : List String :=
  (s.noteTags.filter fun p => p.1 = id).map Prod.snd

/-- Categories of a note (the `(n)-[:IN_CATEGORY]->(c)` pattern). -/
def noteCatsOf (s : Store) (id : String) : List String :=
  (s.noteCats.filter fun p => p.1 = id).map Prod.snd

/-- `GraphService.get_all_notes_with_features`: all notes whose `note_id` and
`title` are non-null (`note_id` is always present in the model), ordered by
`view_count` descending.  A null `view_count` sorts as 0. -/
noncomputable def get_all_notes_with_features (s : Store) : List Note :=
  sortDesc (fun n => n.view_count.getD 0) (s.notes.filter fun n => n.title.isSome)

/-- Count of distinct tags the candidate shares with at least one of the
user's liked notes: `count(DISTINCT t)` over the pattern
`(liked)-[:HAS_TAG]->(t)<-[:HAS_TAG]-(candidate)`. -/
def sharedTagCount (s : Store) (user : String) (n : Note) : ℕ :=
  ((noteTagsOf s n.note_id).dedup.filter fun t =>
    (likedNoteIds s user).any fun l => (noteTagsOf s l).contains t).length

/-- Count of distinct categories linking the candidate to a liked note by the
second-order pattern
`(candidate)-[:IN_CATEGORY]->(c)<-[:IN_CATEGORY]-(liked2)<-[:LIKED]-(u)`. -/
def sharedCatCount (s : Store) (user : String) (n : Note) : ℕ :=
  ((noteCatsOf s n.note_id).dedup.filter fun c =>
    (likedNoteIds s user).any fun l => (noteCatsOf s l).contains c).length

/-- Graph score of a PPR candidate:
`tag_score * 0.5 + category_score * 0.3 + popularity * 0.2` with
`popularity = candidate.like_count`. -/
noncomputable def pprScore (s : Store) (user : String) (n : Note) : ℝ :=
  (sharedTagCount s user n : ℝ) * 0.5 + (sharedCatCount s user n : ℝ) * 0.3
    + n.like_count * 0.2

/-- Candidate rows of the PPR query: notes matched by the shared-tag pattern
(so they share at least one tag with a liked note) and not themselves liked
by the user. -/
def pprCandidates (s : Store) (user : String) : List Note :=
  s.notes.filter fun n =>
    !(likedNoteIds s user).contains n.note_id && (likedNoteIds s user).any fun l =>
      ((noteTagsOf s l).any fun t => (noteTagsOf s n.note_id).contains t)

/-- Rows the PPR query returns: candidates ordered by `graph_score`
descending, truncated to `limit`, projected to `(note_id, graph_score)`. -/
noncomputable def pprRecs (s : Store) (user : String) (limit : ℕ) :
    List (String × ℝ) :=
  ((sortDesc (pprScore s user) (pprCandidates s user)).take limit).map
    fun n => (n.note_id, pprScore s user n)

/-- `GraphService._get_popular_notes`' score:
`COALESCE(view,0)*0.3 + COALESCE(download,0)*0.3 + COALESCE(like,0)*0.4`. -/
noncomputable def popularityScore (n : Note) : ℝ :=
  n.view_count.getD 0 * 0.3 + n.download_count.getD 0 * 0.3 + n.like_count * 0.4

/-- `GraphService._get_popular_notes`: every note, ordered by the popularity
score descending, truncated to `limit`. -/
noncomputable def get_popular_notes (s : Store) (limit : ℕ) : List (String × ℝ) :=
  ((sortDesc popularityScore s.notes).take limit).map
    fun n => (n.note_id, popularityScore n)

/-- `GraphService.personalized_pagerank`: popularity fallback when the user
has liked nothing, else the PPR rows, else (when those are empty) the
popularity fallback again. -/
noncomputable def personalized_pagerank (s : Store) (user : String) (limit : ℕ) :
    List (String × ℝ) :=
  if (likedNoteIds s user).length = 0 then get_popular_notes s limit
  else
    let recs := pprRecs s user limit
    if recs.isEmpty then get_popular_notes s limit else recs

/-- Feature record `GraphService.get_note_features` returns. -/
structure NoteFeatures where
  like_count : ℝ
  view_count : ℝ
  download_count : ℝ
  rating : ℝ
  tag_count : ℕ
  category : String

/-- `GraphService.get_note_features`: the matched note's scalar attributes
(nulls defaulted to 0), its distinct-tag count, and its first category name
(defaulting to the sentinel `"unknown"`); all-zero defaults when no node
matches the id. -/
def get_note_features (s : Store) (id : String) : NoteFeatures :=
  match s.notes.find? (fun n => n.note_id == id) with
  | some n =>
    { like_count := n.like_count
      view_count := n.view_count.getD 0
      download_count := n.download_count.getD 0
      rating := n.rating.getD 0
      tag_count := (noteTagsOf s id).dedup.length
      category := ((noteCatsOf s id).head?).getD "unknown" }
  | none =>
    { like_count := 0, view_count := 0, download_count := 0, rating := 0,
      tag_count := 0, category := "unknown" }

/-! ## Feature vectors for the neural scorer (`services/gnn_service.py`)

`GNNService.predict_scores` first builds one 3-component feature vector per
candidate id, assigning integer category codes in first-seen order through
the mutable `category_map` dict; the torch model that then consumes the
vectors is an external collaborator and stays outside the embedding. -/

/-- One feature vector as `predict_scores` builds it: the fixed divisors 100,
10 and 10 applied to like count, tag count and category code. -/
noncomputable def featureVector (f : NoteFeatures) (code : ℕ) : List ℝ :=
  [f.like_count / 100, (f.tag_count : ℝ) / 10, (code : ℝ) / 10]

/-- The `category_map` loop body: a category not seen before is appended, so
its code is its position in the list. -/
def extendCatMap (s : Store) (catMap : List String) (id : String) : List String :=
  let c := (get_note_features s id).category
  if c ∈ catMap then catMap else catMap ++ [c]

/-- The `category_map` after the whole batch has been processed, starting
from the given map state. -/
def finalCatMap (s : Store) (catMap : List String) (ids : List String) :
    List String :=
  ids.foldl (extendCatMap s) catMap

/-- Feature-building loop of `predict_scores`, carrying the `category_map`
state: each id's vector uses the code its category has in the map at that
point of the iteration. -/
noncomputable def buildVectorsFrom (s : Store) (catMap : List String) :
    List String → List (List ℝ)
  | [] => []
  | id :: rest =>
    let f := get_note_features s id
    let catMap1 := extendCatMap s catMap id
    featureVector f (catMap1.indexOf f.category) :: buildVectorsFrom s catMap1 rest

/-- The feature matrix `predict_scores` hands to the torch model for the
given batch of note ids. -/
noncomputable def buildFeatureVectors (s : Store) (ids : List String) :
    List (List ℝ) :=
  buildVectorsFrom s [] ids

/-! ## Score fusion (`services/recommendation_service.py`)

`RecommendationService.get_recommendations` translated with its two genuine
inputs made explicit: `gnn` is the score map the external torch model
returns for the batch (`gnn_scores.get(note_id, 0.5)` becomes
`(gnn id).getD (1/2)`), and `rand` is the per-note `random.uniform(0, 1)`
draw.  The `ab_group` argument is carried exactly as in the source. -/

/-- `RecommendationService._calculate_traditional_scores`: per-request maxima
over all fetched notes (Python `max(...) or 1`), then for every note with a
truthy id the weighted sum `0.3·norm_view + 0.3·norm_download + 0.4·norm_rating`
keyed by note id. -/
noncomputable def calculate_traditional_scores (notes : List Note) :
    List (String × ℝ) :=
  let maxViews := orOne (pymax (notes.map fun n => n.view_count.getD 0))
  let maxDownloads := orOne (pymax (notes.map fun n => n.download_count.getD 0))
  notes.filterMap fun n =>
    if n.note_id = "" then none
    else some (n.note_id,
      0.3 * (n.view_count.getD 0 / maxViews)
        + 0.3 * (n.download_count.getD 0 / maxDownloads)
        + 0.4 * (n.rating.getD 0 / 5))

/-- Recency score of one note in `_calculate_recency_scores`: exponential
decay `exp(-days_old / 30)` for a parsed date, `0.5` for an empty field or a
parse error. -/
noncomputable def recencyScore : DateParse → ℝ
  | .parsed d => Real.exp (-(d : ℝ) / 30)
  | .missing => 1 / 2
  | .unparsable => 1 / 2

/-- `RecommendationService._calculate_recency_scores`: the recency score of
every note with a truthy id, keyed by note id. -/
noncomputable def calculate_recency_scores (notes : List Note) :
    List (String × ℝ) :=
  notes.filterMap fun n =>
    if n.note_id = "" then none else some (n.note_id, recencyScore n.created)

/-- The hybrid final score of one note inside the `get_recommendations` loop:
weights 0.35/0.35/0.15/0.15 plus the capped graph boost
`min(graph_scores.get(id, 0) / 10, 0.3)`. -/
noncomputable def hybridScore (graphScores tradScores recScores : List (String × ℝ))
    (gnn : String → Option ℝ) (rand : String → ℝ) (n : Note) : ℝ :=
  0.35 * ((gnn n.note_id).getD (1 / 2))
    + 0.35 * ((tradScores.lookup n.note_id).getD 0)
    + 0.15 * ((recScores.lookup n.note_id).getD (1 / 2))
    + 0.15 * rand n.note_id
    + min (((graphScores.lookup n.note_id).getD 0) / 10) 0.3

/-- Tail of the `get_recommendations` loop, given the fetched corpus and the
graph-candidate rows: build the per-note score list, sort it by final score
descending and return the top `limit` note ids (notes with a falsy id are
skipped by the loop's `continue`). -/
noncomputable def fuseAndRank (allNotes : List Note)
    (graphScores : List (String × ℝ)) (gnn : String → Option ℝ)
    (rand : String → ℝ) (limit : ℕ) : List String :=
  let tradScores := calculate_traditional_scores allNotes
  let recScores := calculate_recency_scores allNotes
  let finalScores := allNotes.filterMap fun n =>
    if n.note_id = "" then none
    else some (n.note_id, hybridScore graphScores tradScores recScores gnn rand n)
  ((sortDesc Prod.snd finalScores).take limit).map Prod.fst

/-- `RecommendationService.get_recommendations`: fetch the corpus, return
`[]` when it is empty, otherwise get graph candidates with `limit*3` and fuse
all signals into the ranked top-`limit` id list.  The `ab_group` argument is
accepted exactly as in the source, which never reads it. -/
noncomputable def get_recommendations (s : Store) (gnn : String → Option ℝ)
    (rand : String → ℝ) (user : String) (ab_group : Option ABGroup)
    (limit : ℕ) : List String :=
  let allNotes := get_all_notes_with_features s
  if allNotes.isEmpty then []
  else fuseAndRank allNotes (personalized_pagerank s user (limit * 3)) gnn rand limit

/-! ## Definitions taken from the specification's words

Everything below prefixed `spec` follows the specification text, not the
code, and exists to be compared with the code-side definitions above. -/

/-- Modelled from the spec: the §4.1 popularity formula
`0.3·view + 0.3·download + 0.4·like` over raw magnitudes, missing numeric
attributes treated as 0. -/
noncomputable def specPopularity (n : Note) : ℝ :=
  0.3 * n.view_count.getD 0 + 0.3 * n.download_count.getD 0 + 0.4 * n.like_count

/-- Modelled from the spec: the §4.1 graph-propagation combination
`0.5·tag_score + 0.3·category_score + 0.2·like_count`. -/
noncomputable def specPprScore (s : Store) (user : String) (n : Note) : ℝ :=
  0.5 * (sharedTagCount s user n : ℝ) + 0.3 * (sharedCatCount s user n : ℝ)
    + 0.2 * n.like_count

/-- A note shares at least one tag with some note the user has liked. -/
def sharesTagWithLiked (s : Store) (user : String) (n : Note) : Prop :=
  ∃ t ∈ noteTagsOf s n.note_id, ∃ l ∈ likedNoteIds s user, t ∈ noteTagsOf s l

instance (s : Store) (user : String) (n : Note) :
    Decidable (sharesTagWithLiked s user n) := by
  unfold sharesTagWithLiked; infer_instance

/-- Claim C6's reading of the graph-propagation path: score EVERY note the
user has not yet liked, sort descending, take the top `limit`. -/
noncomputable def specAllNonLikedRecs (s : Store) (user : String) (limit : ℕ) :
    List (String × ℝ) :=
  ((sortDesc (specPprScore s user)
      (s.notes.filter fun n => n.note_id ∉ likedNoteIds s user)).take limit).map
    fun n => (n.note_id, specPprScore s user n)

/-- The graph-propagation path as the code restricts it: only non-liked notes
sharing at least one tag with a liked note are scored. -/
noncomputable def specSharedTagRecs (s : Store) (user : String) (limit : ℕ) :
    List (String × ℝ) :=
  ((sortDesc (specPprScore s user)
      (s.notes.filter fun n =>
        n.note_id ∉ likedNoteIds s user ∧ sharesTagWithLiked s user n)).take limit).map
    fun n => (n.note_id, specPprScore s user n)

/-- Modelled from the spec: §4.4's traditional score
`0.3·norm_view + 0.3·norm_download + 0.4·norm_rating`, views and downloads
normalized against the corpus maxima recomputed per request, rating against
the fixed scale 5.0. -/
noncomputable def specTraditionalScore (notes : List Note) (n : Note) : ℝ :=
  0.3 * (n.view_count.getD 0 / pymax (notes.map fun m => m.view_count.getD 0))
    + 0.3 * (n.download_count.getD 0 / pymax (notes.map fun m => m.download_count.getD 0))
    + 0.4 * (n.rating.getD 0 / 5)

/-- Modelled from the spec: §4.4's graph boost `min(graph_score/10, 0.3)` for
notes present in the candidate set, else 0. -/
noncomputable def specGraphBoost (cands : List (String × ℝ)) (n : Note) : ℝ :=
  match cands.lookup n.note_id with
  | some g => min (g / 10) 0.3
  | none => 0

/-- Modelled from the spec: §4.4's default fusion
`0.35·neural + 0.35·traditional + 0.15·recency + 0.15·random + graph_boost`. -/
noncomputable def specDefaultScore (s : Store) (gnn : String → Option ℝ)
    (rand : String → ℝ) (user : String) (limit : ℕ) (n : Note) : ℝ :=
  0.35 * ((gnn n.note_id).getD (1 / 2))
    + 0.35 * specTraditionalScore (get_all_notes_with_features s) n
    + 0.15 * recencyScore n.created
    + 0.15 * rand n.note_id
    + specGraphBoost (personalized_pagerank s user (limit * 3)) n

/-- Modelled from the spec: the default-mode output, the ids of the
top-`limit` eligible notes by the default fusion score in descending order. -/
noncomputable def specDefaultRanking (s : Store) (gnn : String → Option ℝ)
    (rand : String → ℝ) (user : String) (limit : ℕ) : List String :=
  ((sortDesc (specDefaultScore s gnn rand user limit)
      ((get_all_notes_with_features s).filter fun n => n.note_id ≠ "")).take limit).map
    Note.note_id

/-- Modelled from the spec: §4.4's A/B fusion weights, `(0.4, 0.6)` for group
A and `(0.6, 0.4)` for group B. -/
noncomputable def specABWeights : ABGroup → ℝ × ℝ
  | .A => (0.4, 0.6)
  | .B => (0.6, 0.4)

/-- Modelled from the spec: the experiment-mode output claimed in §4.4 —
`final = w1·graph_score + w2·neural` over the graph-candidate subset only,
top `limit` in descending order. -/
noncomputable def specABRanking (s : Store) (gnn : String → Option ℝ)
    (user : String) (g : ABGroup) (limit : ℕ) : List String :=
  let cands := personalized_pagerank s user (limit * 3)
  ((sortDesc Prod.snd (cands.map fun c =>
      (c.1, (specABWeights g).1 * c.2 + (specABWeights g).2 * ((gnn c.1).getD (1 / 2))))).take
    limit).map Prod.fst

/-! ## Claim C2: experiment decision rule -/

/-- C2: for every counter state and every current time, `winning_group`
returns none strictly before the threshold regardless of counts; at or after
the threshold it returns A exactly when `count_A > count_B` and B exactly
when `count_A ≤ count_B` (ties resolve to B). -/
theorem winning_group_threshold_and_tiebreak (c : Counts) (now threshold : ℤ) :
    (now < threshold → get_winning_group c now threshold = none)
    ∧ (threshold ≤ now →
        ((get_winning_group c now threshold = some .A ↔ c.b < c.a)
          ∧ (get_winning_group c now threshold = some .B ↔ c.a ≤ c.b))) := by
  constructor
  · intro h
    simp [get_winning_group, h]
  · intro h
    have h' : ¬ now < threshold := not_lt.mpr h
    by_cases hab : c.b < c.a
    · simp [get_winning_group, h', hab, Nat.not_le.mpr hab]
    · simp [get_winning_group, h', hab, Nat.le_of_not_lt hab]

/-- Witness for C2 at concrete counters and times: decided A on (3,2) after
the threshold, decided B on a (2,2) tie after the threshold, undecided
before the threshold even at (9,0). -/
theorem winning_group_threshold_and_tiebreak_witness :
    get_winning_group ⟨3, 2, 0⟩ 5 4 = some .A
      ∧ get_winning_group ⟨2, 2, 0⟩ 5 4 = some .B
      ∧ get_winning_group ⟨9, 0, 0⟩ 3 4 = none :=
  ⟨((winning_group_threshold_and_tiebreak ⟨3, 2, 0⟩ 5 4).2 (by decide)).1.mpr (by decide),
    ((winning_group_threshold_and_tiebreak ⟨2, 2, 0⟩ 5 4).2 (by decide)).2.mpr (by decide),
    (winning_group_threshold_and_tiebreak ⟨9, 0, 0⟩ 3 4).1 (by decide)⟩

/-! ## Claim C3: `record_like` is not atomic -/

/-- Counterexample to C3: starting from an empty valid log and zero counters,
a failure at the counters write (after the log write succeeded) leaves the
new event in the log while the counters are untouched — exactly the partial
application the claim rules out. -/
theorem record_like_partial_application :
    (record_like ⟨.valid [], ⟨0, 0, 0⟩⟩ "u1" "n1" .A 7 false true).state.likesFile
        = .valid [⟨"u1", "n1", .A, 7⟩]
      ∧ (record_like ⟨.valid [], ⟨0, 0, 0⟩⟩ "u1" "n1" .A 7 false true).state.counts
        = ⟨0, 0, 0⟩
      ∧ (record_like ⟨.valid [], ⟨0, 0, 0⟩⟩ "u1" "n1" .A 7 false true).ok = false :=
  ⟨rfl, rfl, rfl⟩

/-- C3 as amended: when both file writes succeed, `record_like` appends
exactly one event record to the log, increments exactly the given group's
counter by 1, and stamps `last_updated`; the two writes are separate file
operations, so atomicity holds only on the all-success path. -/
theorem record_like_success_effects (st : ABState) (u n : String) (g : ABGroup)
    (now : ℤ) :
    (record_like st u n g now false false).ok = true
      ∧ (record_like st u n g now false false).state.likesFile
          = .valid (load_likes_data st.likesFile ++ [⟨u, n, g, now⟩])
      ∧ (record_like st u n g now false false).state.counts.a
          = st.counts.a + (if g = .A then 1 else 0)
      ∧ (record_like st u n g now false false).state.counts.b
          = st.counts.b + (if g = .B then 1 else 0)
      ∧ (record_like st u n g now false false).state.counts.last_updated = now := by
  cases g <;> simp [record_like, increment_count]

/-! ## Claim C10: a corrupt or absent log is silently replaced -/

/-- C10: when the likes file is absent or holds invalid JSON, `record_like`
does not fail — the load step treats the log as empty, so the file is
rewritten holding only the new event (prior audit records are discarded)
while the counter increment still proceeds. -/
theorem corrupt_log_replaced_on_record_like (st : ABState) (u n : String)
    (g : ABGroup) (now : ℤ)
    (h : st.likesFile = .corrupt ∨ st.likesFile = .missing) :
    (record_like st u n g now false false).ok = true
      ∧ (record_like st u n g now false false).state.likesFile
          = .valid [⟨u, n, g, now⟩]
      ∧ (record_like st u n g now false false).state.counts
          = increment_count st.counts g now := by
  rcases h with h | h <;> simp [record_like, h, load_likes_data]

/-- Witness for C10: a concrete corrupt log with counters (2,3) ends as a
log holding only the new event, with the B counter bumped to 4. -/
theorem corrupt_log_replaced_witness :
    (record_like ⟨.corrupt, ⟨2, 3, 1⟩⟩ "u2" "n2" .B 9 false false).state.likesFile
        = .valid [⟨"u2", "n2", .B, 9⟩]
      ∧ (record_like ⟨.corrupt, ⟨2, 3, 1⟩⟩ "u2" "n2" .B 9 false false).state.counts
          = increment_count ⟨2, 3, 1⟩ .B 9 :=
  ⟨(corrupt_log_replaced_on_record_like ⟨.corrupt, ⟨2, 3, 1⟩⟩ "u2" "n2" .B 9
      (Or.inl rfl)).2.1,
    (corrupt_log_replaced_on_record_like ⟨.corrupt, ⟨2, 3, 1⟩⟩ "u2" "n2" .B 9
      (Or.inl rfl)).2.2⟩

/-! ## Claim C8: recency score -/

/-- C8: the recency score is `exp(-days/30)` for every parsed creation date,
antitone in the age, exactly 1 at age 0, within 0.01 of 0.368 at age 30, and
exactly 0.5 for a missing or unparsable creation date. -/
theorem recency_decay_spec :
    (∀ d : ℤ, recencyScore (.parsed d) = Real.exp (-(d : ℝ) / 30))
    ∧ (∀ d e : ℤ, d ≤ e → recencyScore (.parsed e) ≤ recencyScore (.parsed d))
    ∧ recencyScore (.parsed 0) = 1
    ∧ |recencyScore (.parsed 30) - 0.368| ≤ 0.01
    ∧ recencyScore .missing = 1 / 2
    ∧ recencyScore .unparsable = 1 / 2 := by
  refine ⟨fun d => rfl, fun d e h => ?_, ?_, ?_, rfl, rfl⟩
  · show Real.exp (-(e : ℝ) / 30) ≤ Real.exp (-(d : ℝ) / 30)
    apply Real.exp_le_exp.mpr
    have : (d : ℝ) ≤ (e : ℝ) := Int.cast_le.mpr h
    linarith
  · show Real.exp (-((0 : ℤ) : ℝ) / 30) = 1
    norm_num
  · show |Real.exp (-((30 : ℤ) : ℝ) / 30) - 0.368| ≤ 0.01
    have h30 : (-((30 : ℤ) : ℝ) / 30) = -1 := by norm_num
    rw [h30, Real.exp_neg]
    have hub : (Real.exp 1)⁻¹ < (2.7182818283 : ℝ)⁻¹ :=
      inv_strictAnti₀ (by norm_num) Real.exp_one_gt_d9
    have hlb : (2.7182818286 : ℝ)⁻¹ < (Real.exp 1)⁻¹ :=
      inv_strictAnti₀ (Real.exp_pos 1) Real.exp_one_lt_d9
    have hub' : (2.7182818283 : ℝ)⁻¹ ≤ 0.378 := by norm_num
    have hlb' : (0.358 : ℝ) ≤ (2.7182818286 : ℝ)⁻¹ := by norm_num
    rw [abs_le]
    constructor <;> linarith

/-- Witness for C8 at concrete ages: a 30-day-old note scores no more than a
fresh one. -/
theorem recency_decay_spec_witness :
    recencyScore (.parsed 30) ≤ recencyScore (.parsed 0) :=
  recency_decay_spec.2.1 0 30 (by decide)

/-! ## Claim C5: popularity fallback of the Candidate Generator -/

theorem popularityScore_eq_spec : popularityScore = specPopularity := by
  funext n
  unfold popularityScore specPopularity
  ring

/-- C5: for a user with zero recorded likes, and likewise whenever the
graph-propagation path yields zero candidate rows, the Candidate Generator
returns the top `limit` notes ordered descending by the raw popularity
formula `0.3·view + 0.3·download + 0.4·like`, missing numerics as 0. -/
theorem candidate_fallback_is_popularity (s : Store) (user : String) (limit : ℕ)
    (h : likedNoteIds s user = [] ∨ pprRecs s user limit = []) :
    personalized_pagerank s user limit
      = ((sortDesc specPopularity s.notes).take limit).map
          fun n => (n.note_id, specPopularity n) := by
  have hpop : get_popular_notes s limit
      = ((sortDesc specPopularity s.notes).take limit).map
          fun n => (n.note_id, specPopularity n) := by
    unfold get_popular_notes
    rw [popularityScore_eq_spec]
  rcases h with h | h
  · unfold personalized_pagerank
    rw [h]
    simpa using hpop
  · unfold personalized_pagerank
    by_cases hl : (likedNoteIds s user).length = 0
    · rw [if_pos hl]
      exact hpop
    · rw [if_neg hl]
      simp only [h, List.isEmpty_nil, if_pos]
      exact hpop

/-- Concrete note used by the C5 witness. -/
noncomputable def c5Note : Note :=
  ⟨"p1", some "t", none, some 4, some 2, none, 3, .missing⟩

/-- Concrete one-note store with no likes used by the C5 witness. -/
noncomputable def c5Store : Store :=
  ⟨[c5Note], [], [], []⟩

/-- Witness for C5: a user with no likes on a concrete one-note store gets
the popularity ranking. -/
theorem candidate_fallback_is_popularity_witness :
    personalized_pagerank c5Store "u" 1
      = ((sortDesc specPopularity c5Store.notes).take 1).map
          fun n => (n.note_id, specPopularity n) :=
  candidate_fallback_is_popularity c5Store "u" 1 (Or.inl rfl)

/-! ## Claim C6: the graph-propagation path scores only shared-tag notes -/

theorem pprScore_eq_spec (s : Store) (user : String) :
    pprScore s user = specPprScore s user := by
  funext n
  unfold pprScore specPprScore
  ring

theorem pprCandidates_characterization (s : Store) (user : String) :
    pprCandidates s user
      = s.notes.filter fun n =>
          n.note_id ∉ likedNoteIds s user ∧ sharesTagWithLiked s user n := by
  unfold pprCandidates
  apply List.filter_congr
  intro n _
  rw [Bool.eq_iff_iff]
  simp only [Bool.and_eq_true, Bool.not_eq_true', List.any_eq_true,
    List.contains, List.elem_iff, decide_eq_true_eq, Bool.not_eq_true,
    Bool.not_eq_eq_eq_not, Bool.not_true, ne_eq]
  unfold sharesTagWithLiked
  constructor
  · rintro ⟨hna, l, hl, t, htl, htn⟩
    exact ⟨by simpa using hna, t, htn, l, hl, htl⟩
  · rintro ⟨hna, t, htn, l, hl, htl⟩
    exact ⟨by simpa using hna, l, hl, t, htl, htn⟩

/-- Concrete notes for the C6 store: `c6Liked` is the note the user liked,
`c6Tagged` shares its tag, `c6Categorized` shares only its category but has
10 likes. -/
noncomputable def c6Liked : Note :=
  ⟨"l1", some "t", none, none, none, none, 0, .missing⟩

noncomputable def c6Tagged : Note :=
  ⟨"n2", some "t", none, none, none, none, 0, .missing⟩

noncomputable def c6Categorized : Note :=
  ⟨"n3", some "t", none, none, none, none, 10, .missing⟩

/-- Store where the user "u" liked `l1`; `n2` shares tag `t1` with `l1`,
while `n3` shares no tag but is in `l1`'s category `c1` and has 10 likes. -/
noncomputable def c6Store : Store :=
  ⟨[c6Liked, c6Tagged, c6Categorized], [("u", "l1")],
    [("l1", "t1"), ("n2", "t1")], [("l1", "c1"), ("n3", "c1")]⟩

theorem c6_likedNoteIds_eval : likedNoteIds c6Store "u" = ["l1"] := by
  simp [likedNoteIds, c6Store]

theorem c6_pprCandidates_eval : pprCandidates c6Store "u" = [c6Tagged] := by
  simp [pprCandidates, c6Store, likedNoteIds, noteTagsOf, c6Liked, c6Tagged,
    c6Categorized]

theorem c6_tagged_code_score : pprScore c6Store "u" c6Tagged = 1 / 2 := by
  have h1 : sharedTagCount c6Store "u" c6Tagged = 1 := by
    simp [sharedTagCount, noteTagsOf, likedNoteIds, c6Store, c6Tagged]
  have h2 : sharedCatCount c6Store "u" c6Tagged = 0 := by
    simp [sharedCatCount, noteCatsOf, likedNoteIds, c6Store, c6Tagged]
  have h3 : c6Tagged.like_count = 0 := rfl
  rw [pprScore, h1, h2, h3]
  norm_num

theorem c6_pprRecs_eval :
    pprRecs c6Store "u" 1 = [("n2", pprScore c6Store "u" c6Tagged)] := by
  rw [pprRecs, c6_pprCandidates_eval]
  simp [sortDesc, insertDesc, c6Tagged]

theorem c6_spec_tagged_score : specPprScore c6Store "u" c6Tagged = 1 / 2 := by
  rw [← pprScore_eq_spec, c6_tagged_code_score]

theorem c6_spec_categorized_score :
    specPprScore c6Store "u" c6Categorized = 23 / 10 := by
  have h1 : sharedTagCount c6Store "u" c6Categorized = 0 := by
    simp [sharedTagCount, noteTagsOf, likedNoteIds, c6Store, c6Categorized]
  have h2 : sharedCatCount c6Store "u" c6Categorized = 1 := by
    simp [sharedCatCount, noteCatsOf, likedNoteIds, c6Store, c6Categorized]
  have h3 : c6Categorized.like_count = 10 := rfl
  rw [← pprScore_eq_spec, pprScore, h1, h2, h3]
  norm_num

/-- Counterexample to C6: on `c6Store` the code's graph-propagation path
returns only the shared-tag note `n2`, while scoring EVERY non-liked note as
the claim states would rank the category-sharing, well-liked note `n3`
first (claim score 2.3 against 0.5). -/
theorem ppr_not_all_non_liked_cex :
    (personalized_pagerank c6Store "u" 1).map Prod.fst = ["n2"]
      ∧ (specAllNonLikedRecs c6Store "u" 1).map Prod.fst = ["n3"] := by
  constructor
  · rw [personalized_pagerank, c6_likedNoteIds_eval]
    rw [if_neg (by simp)]
    simp [c6_pprRecs_eval, c6Tagged]
  · rw [specAllNonLikedRecs, c6_likedNoteIds_eval]
    have hfil : (c6Store.notes.filter fun n => n.note_id ∉ (["l1"] : List String))
        = [c6Tagged, c6Categorized] := by
      simp [c6Store, c6Liked, c6Tagged, c6Categorized]
    rw [hfil]
    have hsort : sortDesc (specPprScore c6Store "u") [c6Tagged, c6Categorized]
        = [c6Categorized, c6Tagged] := by
      simp only [sortDesc, List.foldr_cons, List.foldr_nil, insertDesc]
      rw [if_neg (by rw [c6_spec_tagged_score, c6_spec_categorized_score]; norm_num)]
    rw [hsort]
    simp [c6Categorized]

/-- C6 as amended: for a user with at least one like and a nonempty
candidate set, the Candidate Generator scores only the notes not yet liked
that share at least one tag with a liked note — with
`0.5·tag_score + 0.3·category_score + 0.2·like_count` — sorts them
descending and returns the top `limit`; non-liked notes with no shared tag
are excluded even when they share a category or have likes. -/
theorem ppr_scores_shared_tag_notes (s : Store) (user : String) (limit : ℕ)
    (hl : likedNoteIds s user ≠ []) (hc : pprRecs s user limit ≠ []) :
    personalized_pagerank s user limit = specSharedTagRecs s user limit := by
  unfold personalized_pagerank
  rw [if_neg (by simpa using hl)]
  simp only [List.isEmpty_iff, if_neg hc]
  unfold pprRecs specSharedTagRecs
  rw [pprScore_eq_spec, pprCandidates_characterization]

/-- Witness for C6 as amended, on the concrete `c6Store`. -/
theorem ppr_scores_shared_tag_notes_witness :
    personalized_pagerank c6Store "u" 1 = specSharedTagRecs c6Store "u" 1 :=
  ppr_scores_shared_tag_notes c6Store "u" 1
    (by rw [c6_likedNoteIds_eval]; simp)
    (by rw [c6_pprRecs_eval]; simp)

/-! ## Claim C7: rank for zero-like users does not follow raw popularity -/

/-- Concrete note with the higher raw popularity (60) but the lower
traditional score (0.6): views 100, downloads 100, rating absent. -/
noncomputable def c7Note1 : Note :=
  ⟨"n1", some "t", none, some 100, some 100, none, 0, .missing⟩

/-- Concrete note with the lower raw popularity (54) but the higher
traditional score (0.94): views 90, downloads 90, rating 5. -/
noncomputable def c7Note2 : Note :=
  ⟨"n2", some "t", some 5, some 90, some 90, none, 0, .missing⟩

/-- Two-note store with no likes used against claim C7. -/
noncomputable def c7Store : Store :=
  ⟨[c7Note1, c7Note2], [], [], []⟩

theorem c7_allNotes_eval :
    get_all_notes_with_features c7Store = [c7Note1, c7Note2] := by
  unfold get_all_notes_with_features
  norm_num [c7Store, c7Note1, c7Note2, sortDesc, insertDesc]

theorem c7_popular_eval :
    get_popular_notes c7Store 6 = [("n1", (60 : ℝ)), ("n2", (54 : ℝ))] := by
  have h1 : popularityScore c7Note1 = 60 := by
    norm_num [popularityScore, c7Note1]
  have h2 : popularityScore c7Note2 = 54 := by
    norm_num [popularityScore, c7Note2]
  unfold get_popular_notes
  rw [show c7Store.notes = [c7Note1, c7Note2] from rfl]
  simp only [sortDesc, List.foldr_cons, List.foldr_nil, insertDesc]
  rw [if_pos (by rw [h1, h2]; norm_num)]
  simp [h1, h2, show c7Note1.note_id = "n1" from rfl,
    show c7Note2.note_id = "n2" from rfl]

theorem c7_candidates_eval :
    personalized_pagerank c7Store "u" 6 = [("n1", (60 : ℝ)), ("n2", (54 : ℝ))] := by
  unfold personalized_pagerank
  rw [show likedNoteIds c7Store "u" = [] from by simp [likedNoteIds, c7Store]]
  simpa using c7_popular_eval

theorem c7_trad_eval :
    calculate_traditional_scores [c7Note1, c7Note2]
      = [("n1", (3 : ℝ) / 5), ("n2", (47 : ℝ) / 50)] := by
  unfold calculate_traditional_scores
  norm_num [c7Note1, c7Note2, pymax, orOne, max_def, List.filterMap_cons,
    List.filterMap_nil]
  all_goals simp

theorem c7_rec_eval :
    calculate_recency_scores [c7Note1, c7Note2]
      = [("n1", (1 : ℝ) / 2), ("n2", (1 : ℝ) / 2)] := by
  unfold calculate_recency_scores
  norm_num [c7Note1, c7Note2, recencyScore, List.filterMap_cons,
    List.filterMap_nil]
  all_goals simp

theorem c7_hybrid1_eval :
    hybridScore [("n1", (60 : ℝ)), ("n2", (54 : ℝ))]
        [("n1", (3 : ℝ) / 5), ("n2", (47 : ℝ) / 50)]
        [("n1", (1 : ℝ) / 2), ("n2", (1 : ℝ) / 2)]
        (fun _ => none) (fun _ => 0) c7Note1 = 19 / 25 := by
  unfold hybridScore
  simp [c7Note1, List.lookup]
  norm_num [min_def]

theorem c7_hybrid2_eval :
    hybridScore [("n1", (60 : ℝ)), ("n2", (54 : ℝ))]
        [("n1", (3 : ℝ) / 5), ("n2", (47 : ℝ) / 50)]
        [("n1", (1 : ℝ) / 2), ("n2", (1 : ℝ) / 2)]
        (fun _ => none) (fun _ => 0) c7Note2 = 879 / 1000 := by
  unfold hybridScore
  simp [c7Note2, List.lookup]
  norm_num [min_def]

/-- Counterexample to C7: on `c7Store`, for the zero-like user "u" with the
random term mocked to 0 and the neural signal at its neutral default, `rank`
returns `["n2", "n1"]` although `n1` has the strictly higher raw popularity
— so the output is not ordered by `0.3·view + 0.3·download + 0.4·like`. -/
theorem rank_not_popularity_order_cex :
    get_recommendations c7Store (fun _ => none) (fun _ => 0) "u" none 2
        = ["n2", "n1"]
      ∧ specPopularity c7Note2 < specPopularity c7Note1 := by
  constructor
  · simp only [get_recommendations, c7_allNotes_eval]
    rw [if_neg (by simp)]
    show fuseAndRank [c7Note1, c7Note2] (personalized_pagerank c7Store "u" 6)
        (fun _ => none) (fun _ => 0) 2 = ["n2", "n1"]
    rw [fuseAndRank, c7_candidates_eval, c7_trad_eval, c7_rec_eval]
    simp only [List.filterMap_cons, List.filterMap_nil]
    rw [if_neg (by simp [c7Note1]), if_neg (by simp [c7Note2])]
    simp only [c7_hybrid1_eval, c7_hybrid2_eval]
    show (List.take 2 (sortDesc Prod.snd
        [((c7Note1.note_id, (19 : ℝ) / 25)), ((c7Note2.note_id, (879 : ℝ) / 1000))])).map
        Prod.fst = ["n2", "n1"]
    simp only [sortDesc, List.foldr_cons, List.foldr_nil, insertDesc]
    rw [if_neg (by norm_num)]
    simp [c7Note1, c7Note2, insertDesc]
  · norm_num [specPopularity, c7Note1, c7Note2]

/-- C7 as amended: for a zero-like user the fallback candidate rows are the
raw-popularity ranking, but `rank` fuses them (through the capped graph
boost) with the neural, traditional, recency and random signals — the
output follows the default fusion score, not raw popularity alone. -/
theorem zero_likes_rank_fuses_popularity (s : Store) (gnn : String → Option ℝ)
    (rand : String → ℝ) (user : String) (g : Option ABGroup) (limit : ℕ)
    (h : likedNoteIds s user = []) :
    get_recommendations s gnn rand user g limit
      = if (get_all_notes_with_features s).isEmpty then []
        else fuseAndRank (get_all_notes_with_features s)
          (((sortDesc specPopularity s.notes).take (limit * 3)).map
            fun n => (n.note_id, specPopularity n))
          gnn rand limit := by
  have hcand : personalized_pagerank s user (limit * 3)
      = ((sortDesc specPopularity s.notes).take (limit * 3)).map
          fun n => (n.note_id, specPopularity n) :=
    candidate_fallback_is_popularity s user (limit * 3) (Or.inl h)
  simp only [get_recommendations, hcand]

/-- Witness for C7 as amended, on the concrete `c7Store`. -/
theorem zero_likes_rank_fuses_popularity_witness :
    get_recommendations c7Store (fun _ => none) (fun _ => 0) "u" none 2
      = if (get_all_notes_with_features c7Store).isEmpty then []
        else fuseAndRank (get_all_notes_with_features c7Store)
          (((sortDesc specPopularity c7Store.notes).take (2 * 3)).map
            fun n => (n.note_id, specPopularity n))
          (fun _ => none) (fun _ => 0) 2 :=
  zero_likes_rank_fuses_popularity c7Store (fun _ => none) (fun _ => 0) "u" none 2
    (by simp [likedNoteIds, c7Store])

/-! ## Claim C1: no alternate A/B fusion exists in the ranking path -/

/-- Concrete note (raw popularity 60, traditional score 0.6) for the C1
store. -/
noncomputable def c1Note1 : Note :=
  ⟨"m1", some "t", none, some 100, some 100, none, 0, .missing⟩

/-- Concrete note (raw popularity 54, traditional score 0.94) for the C1
store. -/
noncomputable def c1Note2 : Note :=
  ⟨"m2", some "t", some 5, some 90, some 90, none, 0, .missing⟩

/-- Two-note store with no likes used against claim C1. -/
noncomputable def c1Store : Store :=
  ⟨[c1Note1, c1Note2], [], [], []⟩

theorem c1_allNotes_eval :
    get_all_notes_with_features c1Store = [c1Note1, c1Note2] := by
  unfold get_all_notes_with_features
  norm_num [c1Store, c1Note1, c1Note2, sortDesc, insertDesc]

theorem c1_popular_eval :
    get_popular_notes c1Store 3 = [("m1", (60 : ℝ)), ("m2", (54 : ℝ))] := by
  have h1 : popularityScore c1Note1 = 60 := by
    norm_num [popularityScore, c1Note1]
  have h2 : popularityScore c1Note2 = 54 := by
    norm_num [popularityScore, c1Note2]
  unfold get_popular_notes
  rw [show c1Store.notes = [c1Note1, c1Note2] from rfl]
  simp only [sortDesc, List.foldr_cons, List.foldr_nil, insertDesc]
  rw [if_pos (by rw [h1, h2]; norm_num)]
  simp [h1, h2, show c1Note1.note_id = "m1" from rfl,
    show c1Note2.note_id = "m2" from rfl]

theorem c1_candidates_eval :
    personalized_pagerank c1Store "u" 3 = [("m1", (60 : ℝ)), ("m2", (54 : ℝ))] := by
  unfold personalized_pagerank
  rw [show likedNoteIds c1Store "u" = [] from by simp [likedNoteIds, c1Store]]
  simpa using c1_popular_eval

theorem c1_trad_eval :
    calculate_traditional_scores [c1Note1, c1Note2]
      = [("m1", (3 : ℝ) / 5), ("m2", (47 : ℝ) / 50)] := by
  unfold calculate_traditional_scores
  norm_num [c1Note1, c1Note2, pymax, orOne, max_def, List.filterMap_cons,
    List.filterMap_nil]
  all_goals simp

theorem c1_rec_eval :
    calculate_recency_scores [c1Note1, c1Note2]
      = [("m1", (1 : ℝ) / 2), ("m2", (1 : ℝ) / 2)] := by
  unfold calculate_recency_scores
  norm_num [c1Note1, c1Note2, recencyScore, List.filterMap_cons,
    List.filterMap_nil]
  all_goals simp

theorem c1_hybrid1_eval :
    hybridScore [("m1", (60 : ℝ)), ("m2", (54 : ℝ))]
        [("m1", (3 : ℝ) / 5), ("m2", (47 : ℝ) / 50)]
        [("m1", (1 : ℝ) / 2), ("m2", (1 : ℝ) / 2)]
        (fun _ => none) (fun _ => 0) c1Note1 = 19 / 25 := by
  unfold hybridScore
  simp [c1Note1, List.lookup]
  norm_num [min_def]

theorem c1_hybrid2_eval :
    hybridScore [("m1", (60 : ℝ)), ("m2", (54 : ℝ))]
        [("m1", (3 : ℝ) / 5), ("m2", (47 : ℝ) / 50)]
        [("m1", (1 : ℝ) / 2), ("m2", (1 : ℝ) / 2)]
        (fun _ => none) (fun _ => 0) c1Note2 = 879 / 1000 := by
  unfold hybridScore
  simp [c1Note2, List.lookup]
  norm_num [min_def]

/-- Counterexample to C1: on `c1Store` with group A explicitly active, the
ranking operation returns `["m2"]` — the default-fusion winner — while the
claimed alternate fusion `0.4·graph_score + 0.6·neural` over the
graph-candidate subset would return `["m1"]`; the active group changes
nothing in the code's output. -/
theorem ab_fusion_not_used_cex :
    get_recommendations c1Store (fun _ => none) (fun _ => 0) "u" (some .A) 1
        = ["m2"]
      ∧ specABRanking c1Store (fun _ => none) "u" .A 1 = ["m1"] := by
  constructor
  · simp only [get_recommendations, c1_allNotes_eval]
    rw [if_neg (by simp)]
    show fuseAndRank [c1Note1, c1Note2] (personalized_pagerank c1Store "u" 3)
        (fun _ => none) (fun _ => 0) 1 = ["m2"]
    rw [fuseAndRank, c1_candidates_eval, c1_trad_eval, c1_rec_eval]
    simp only [List.filterMap_cons, List.filterMap_nil]
    rw [if_neg (by simp [c1Note1]), if_neg (by simp [c1Note2])]
    simp only [c1_hybrid1_eval, c1_hybrid2_eval]
    show (List.take 1 (sortDesc Prod.snd
        [((c1Note1.note_id, (19 : ℝ) / 25)), ((c1Note2.note_id, (879 : ℝ) / 1000))])).map
        Prod.fst = ["m2"]
    simp only [sortDesc, List.foldr_cons, List.foldr_nil, insertDesc]
    rw [if_neg (by norm_num)]
    simp [c1Note1, c1Note2, insertDesc]
  · unfold specABRanking
    rw [c1_candidates_eval]
    simp only [List.map_cons, List.map_nil, specABWeights]
    have hm1 : (0.4 : ℝ) * 60 + 0.6 * ((none : Option ℝ).getD (1 / 2)) = 243 / 10 := by
      norm_num
    have hm2 : (0.4 : ℝ) * 54 + 0.6 * ((none : Option ℝ).getD (1 / 2)) = 219 / 10 := by
      norm_num
    rw [hm1, hm2]
    simp only [sortDesc, List.foldr_cons, List.foldr_nil, insertDesc]
    rw [if_pos (by norm_num)]
    simp

/-- C1 as amended: the ranking operation ignores the A/B group entirely —
`get_recommendations` accepts the `ab_group` argument but never reads it, so
for every store, scorer, random draw, user and limit the output under any
group (explicit or decided) is identical to the default-fusion output under
no group, and no alternate fusion or candidate-subset restriction exists. -/
theorem ranking_ignores_ab_group (s : Store) (gnn : String → Option ℝ)
    (rand : String → ℝ) (user : String) (g1 g2 : Option ABGroup) (limit : ℕ) :
    get_recommendations s gnn rand user g1 limit
      = get_recommendations s gnn rand user g2 limit := rfl

/-! ## Claim C9: feature extraction -/

theorem mem_extendCatMap (s : Store) (m : List String) (id c : String)
    (h : c ∈ m) : c ∈ extendCatMap s m id := by
  by_cases hc : (get_note_features s id).category ∈ m
  · simpa [extendCatMap, hc] using h
  · simp only [extendCatMap, if_neg hc]
    exact List.mem_append_left _ h

theorem catMem_extendCatMap (s : Store) (m : List String) (id : String) :
    (get_note_features s id).category ∈ extendCatMap s m id := by
  by_cases hc : (get_note_features s id).category ∈ m
  · simp [extendCatMap, hc]
  · simp [extendCatMap, hc]

theorem indexOf_extendCatMap (s : Store) (m : List String) (id c : String)
    (h : c ∈ m) : (extendCatMap s m id).indexOf c = m.indexOf c := by
  by_cases hc : (get_note_features s id).category ∈ m
  · simp [extendCatMap, hc]
  · simp only [extendCatMap, if_neg hc]
    exact List.indexOf_append_of_mem h

theorem indexOf_finalCatMap (s : Store) (ids : List String) :
    ∀ (m : List String) (c : String), c ∈ m →
      (finalCatMap s m ids).indexOf c = m.indexOf c := by
  induction ids with
  | nil => intro m c _; rfl
  | cons a rest ih =>
    intro m c h
    show (finalCatMap s (extendCatMap s m a) rest).indexOf c = _
    rw [ih _ _ (mem_extendCatMap s m a c h), indexOf_extendCatMap s m a c h]

theorem nodup_extendCatMap (s : Store) (m : List String) (id : String)
    (h : m.Nodup) : (extendCatMap s m id).Nodup := by
  by_cases hc : (get_note_features s id).category ∈ m
  · simpa [extendCatMap, hc] using h
  · simp [extendCatMap, hc, List.nodup_append, h]

theorem nodup_finalCatMap (s : Store) (ids : List String) :
    ∀ m : List String, m.Nodup → (finalCatMap s m ids).Nodup := by
  induction ids with
  | nil => intro m h; exact h
  | cons a rest ih => intro m h; exact ih _ (nodup_extendCatMap s m a h)

theorem buildVectorsFrom_getElem (s : Store) (ids : List String) :
    ∀ (m : List String) (i : ℕ) (id : String), ids[i]? = some id →
      (buildVectorsFrom s m ids)[i]?
        = some (featureVector (get_note_features s id)
            ((finalCatMap s m ids).indexOf (get_note_features s id).category)) := by
  induction ids with
  | nil => intro m i id h; simp at h
  | cons a rest ih =>
    intro m i id h
    match i with
    | 0 =>
      have ha : a = id := by simpa using h
      subst ha
      simp only [buildVectorsFrom, List.getElem?_cons_zero, Option.some.injEq]
      rw [show finalCatMap s m (a :: rest) = finalCatMap s (extendCatMap s m a) rest
        from rfl]
      rw [indexOf_finalCatMap s rest _ _ (catMem_extendCatMap s m a)]
    | Nat.succ j =>
      simp only [buildVectorsFrom, List.getElem?_cons_succ]
      exact ih (extendCatMap s m a) j id (by simpa using h)

/-- Concrete note node carrying no attributes at all: every optional scalar
absent, zero likes, no tags, no category. -/
noncomputable def c9BareNote : Note :=
  ⟨"n0", some "t", none, none, none, none, 0, .missing⟩

/-- One-note store holding only the attribute-less note. -/
noncomputable def c9BareStore : Store :=
  ⟨[c9BareNote], [], [], []⟩

/-- C9: every feature vector of a batch is built with the fixed divisors
`like_count/100`, `tag_count/10` and `category_code/10`, the category code
being the category's position in the batch's first-seen category list (which
is duplicate-free, so each category keeps one stable code per batch);
missing numerics default to 0 and a missing category to `"unknown"`, so the
attribute-less note extracts to all-zero features with category
`"unknown"`. -/
theorem feature_vectors_fixed_divisors (s : Store) (ids : List String) (i : ℕ)
    (id : String) (h : ids[i]? = some id) :
    (buildFeatureVectors s ids)[i]?
        = some [(get_note_features s id).like_count / 100,
            ((get_note_features s id).tag_count : ℝ) / 10,
            (((finalCatMap s [] ids).indexOf (get_note_features s id).category : ℕ) : ℝ) / 10]
      ∧ (finalCatMap s [] ids).Nodup
      ∧ get_note_features c9BareStore "n0"
          = ⟨0, 0, 0, 0, 0, "unknown"⟩ := by
  refine ⟨?_, nodup_finalCatMap s ids [] List.nodup_nil, ?_⟩
  · rw [buildFeatureVectors, buildVectorsFrom_getElem s ids [] i id h]
    rfl
  · simp [get_note_features, c9BareStore, c9BareNote, noteTagsOf, noteCatsOf]

/-- Witness for C9 on the one-note batch `["n0"]` over the bare store. -/
theorem feature_vectors_fixed_divisors_witness :
    (buildFeatureVectors c9BareStore ["n0"])[0]?
        = some [(get_note_features c9BareStore "n0").like_count / 100,
            ((get_note_features c9BareStore "n0").tag_count : ℝ) / 10,
            (((finalCatMap c9BareStore [] ["n0"]).indexOf
                (get_note_features c9BareStore "n0").category : ℕ) : ℝ) / 10]
      ∧ (finalCatMap c9BareStore [] ["n0"]).Nodup
      ∧ get_note_features c9BareStore "n0"
          = ⟨0, 0, 0, 0, 0, "unknown"⟩ :=
  feature_vectors_fixed_divisors c9BareStore ["n0"] 0 "n0" rfl

/-! ## Claim C4: the default fusion formula -/

theorem insertDesc_congr {α : Type} (k1 k2 : α → ℝ) (a : α) (l : List α)
    (ha : k1 a = k2 a) (hl : ∀ x ∈ l, k1 x = k2 x) :
    insertDesc k1 a l = insertDesc k2 a l := by
  induction l with
  | nil => rfl
  | cons b t ih =>
    have hb : k1 b = k2 b := hl b (by simp)
    have ht : ∀ x ∈ t, k1 x = k2 x := fun x hx => hl x (by simp [hx])
    simp only [insertDesc, hb, ha]
    by_cases h : k2 b < k2 a
    · simp [h]
    · simp [h, ih ht]

theorem sortDesc_congr {α : Type} (k1 k2 : α → ℝ) (l : List α)
    (h : ∀ x ∈ l, k1 x = k2 x) : sortDesc k1 l = sortDesc k2 l := by
  induction l with
  | nil => rfl
  | cons a t ih =>
    have ht : ∀ x ∈ t, k1 x = k2 x := fun x hx => h x (by simp [hx])
    show insertDesc k1 a (sortDesc k1 t) = insertDesc k2 a (sortDesc k2 t)
    rw [ih ht]
    exact insertDesc_congr k1 k2 a (sortDesc k2 t) (h a (by simp))
      (fun x hx => ht x ((mem_sortDesc k2 t x).mp hx))

theorem filterMap_note_guard {β : Type} (f : Note → β) (l : List Note) :
    (l.filterMap fun n => if n.note_id = "" then none else some (f n))
      = (l.filter fun n => n.note_id ≠ "").map f := by
  induction l with
  | nil => rfl
  | cons a t ih =>
    by_cases h : a.note_id = ""
    · simp [List.filterMap_cons, List.filter_cons, h, ih]
    · simp [List.filterMap_cons, List.filter_cons, h, ih]

theorem lookup_note_scores (f : Note → ℝ) (l : List Note)
    (hnodup : (l.map Note.note_id).Nodup) (n : Note) (hn : n ∈ l)
    (hid : n.note_id ≠ "") :
    ((l.filterMap fun m =>
        if m.note_id = "" then none else some (m.note_id, f m)).lookup n.note_id)
      = some (f n) := by
  induction l with
  | nil => simp at hn
  | cons a t ih =>
    rw [List.map_cons] at hnodup
    obtain ⟨ha, ht⟩ := List.nodup_cons.mp hnodup
    rcases List.mem_cons.mp hn with rfl | hn'
    · rw [List.filterMap_cons, if_neg hid]
      simp [List.lookup]
    · by_cases hae : a.note_id = ""
      · rw [List.filterMap_cons, if_pos hae]
        exact ih ht hn'
      · rw [List.filterMap_cons, if_neg hae]
        have hne : (n.note_id == a.note_id) = false := by
          apply beq_eq_false_iff_ne.mpr
          intro hcontra
          exact ha (hcontra ▸ List.mem_map_of_mem Note.note_id hn')
        simp only [List.lookup, hne]
        exact ih ht hn'

theorem div_orOne_eq (x M : ℝ) (hx : 0 ≤ x) (hxM : x ≤ M) :
    x / orOne M = x / M := by
  unfold orOne
  by_cases h : M = 0
  · have hzero : x = 0 := le_antisymm (h ▸ hxM) hx
    simp [h, hzero]
  · simp [h]

theorem boost_getD_eq (cands : List (String × ℝ)) (n : Note) :
    min (((cands.lookup n.note_id).getD 0) / 10) 0.3 = specGraphBoost cands n := by
  unfold specGraphBoost
  cases cands.lookup n.note_id
  · norm_num [min_def]
  · rfl

theorem fuseAndRank_def (allNotes : List Note) (graphScores : List (String × ℝ))
    (gnn : String → Option ℝ) (rand : String → ℝ) (limit : ℕ) :
    fuseAndRank allNotes graphScores gnn rand limit
      = ((sortDesc Prod.snd (allNotes.filterMap fun n =>
            if n.note_id = "" then none
            else some (n.note_id,
              hybridScore graphScores (calculate_traditional_scores allNotes)
                (calculate_recency_scores allNotes) gnn rand n))).take limit).map
          Prod.fst := rfl

theorem trad_lookup (notes : List Note) (hnodup : (notes.map Note.note_id).Nodup)
    (n : Note) (hn : n ∈ notes) (hid : n.note_id ≠ "") :
    ((calculate_traditional_scores notes).lookup n.note_id).getD 0
      = 0.3 * (n.view_count.getD 0 / orOne (pymax (notes.map fun m => m.view_count.getD 0)))
        + 0.3 * (n.download_count.getD 0
            / orOne (pymax (notes.map fun m => m.download_count.getD 0)))
        + 0.4 * (n.rating.getD 0 / 5) := by
  unfold calculate_traditional_scores
  rw [lookup_note_scores _ notes hnodup n hn hid]
  rfl

theorem rec_lookup (notes : List Note) (hnodup : (notes.map Note.note_id).Nodup)
    (n : Note) (hn : n ∈ notes) (hid : n.note_id ≠ "") :
    ((calculate_recency_scores notes).lookup n.note_id).getD (1 / 2)
      = recencyScore n.created := by
  unfold calculate_recency_scores
  rw [lookup_note_scores _ notes hnodup n hn hid]
  rfl

theorem allNotes_mem (s : Store) (n : Note)
    (h : n ∈ get_all_notes_with_features s) : n ∈ s.notes :=
  List.mem_of_mem_filter ((mem_sortDesc _ _ n).mp h)

theorem allNotes_nodup (s : Store) (h : (s.notes.map Note.note_id).Nodup) :
    ((get_all_notes_with_features s).map Note.note_id).Nodup := by
  have hperm :
      (get_all_notes_with_features s).Perm (s.notes.filter fun n => n.title.isSome) :=
    sortDesc_perm _ _
  have hsub : ((s.notes.filter fun n => n.title.isSome).map Note.note_id).Sublist
      (s.notes.map Note.note_id) :=
    (List.filter_sublist s.notes).map Note.note_id
  exact ((hperm.map Note.note_id).nodup_iff).mpr (hsub.nodup h)

/-- C4: in default fusion mode (the only mode the code has), for every store
with duplicate-free note ids and non-negative view/download magnitudes, the
output of `get_recommendations` — for every scorer, random draw, user, group
and limit — is exactly the spec-worded ranking: the ids of the top-`limit`
eligible notes, descending by
`0.35·neural + 0.35·traditional + 0.15·recency + 0.15·random + graph_boost`
with `traditional` normalized against the per-request corpus maxima and
rating against 5.0, and `graph_boost = min(graph_score/10, 0.3)` for notes
in the candidate set and 0 otherwise. -/
theorem default_fusion_matches_spec (s : Store) (gnn : String → Option ℝ)
    (rand : String → ℝ) (user : String) (g : Option ABGroup) (limit : ℕ)
    (hids : (s.notes.map Note.note_id).Nodup)
    (hv : ∀ n ∈ s.notes, 0 ≤ n.view_count.getD 0)
    (hd : ∀ n ∈ s.notes, 0 ≤ n.download_count.getD 0) :
    get_recommendations s gnn rand user g limit
      = specDefaultRanking s gnn rand user limit := by
  have hA_nodup := allNotes_nodup s hids
  by_cases hAe : (get_all_notes_with_features s).isEmpty
  · have hAnil : get_all_notes_with_features s = [] := by
      simpa [List.isEmpty_iff] using hAe
    simp [get_recommendations, specDefaultRanking, hAnil, sortDesc]
  · have hscore : ∀ n ∈ (get_all_notes_with_features s).filter
        (fun n => n.note_id ≠ ""),
        hybridScore (personalized_pagerank s user (limit * 3))
            (calculate_traditional_scores (get_all_notes_with_features s))
            (calculate_recency_scores (get_all_notes_with_features s)) gnn rand n
          = specDefaultScore s gnn rand user limit n := by
      intro n hn
      have hmemA : n ∈ get_all_notes_with_features s := List.mem_of_mem_filter hn
      have hid : n.note_id ≠ "" := by simpa using List.of_mem_filter hn
      have hmemS : n ∈ s.notes := allNotes_mem s n hmemA
      unfold hybridScore specDefaultScore
      rw [trad_lookup _ hA_nodup n hmemA hid, rec_lookup _ hA_nodup n hmemA hid,
        boost_getD_eq]
      unfold specTraditionalScore
      rw [div_orOne_eq _ _ (hv n hmemS)
          (mem_le_pymax _ _ (List.mem_map_of_mem (fun m => m.view_count.getD 0) hmemA)),
        div_orOne_eq _ _ (hd n hmemS)
          (mem_le_pymax _ _
            (List.mem_map_of_mem (fun m => m.download_count.getD 0) hmemA))]
    simp only [get_recommendations, if_neg hAe]
    rw [fuseAndRank_def, filterMap_note_guard, sortDesc_map]
    rw [← List.map_take, List.map_map]
    unfold specDefaultRanking
    rw [sortDesc_congr _ _ _ hscore]
    rfl

/-- Concrete one-note store used by the C4 witness. -/
noncomputable def c4Note : Note :=
  ⟨"w1", some "t", some 3, some 4, some 2, none, 1, .missing⟩

noncomputable def c4Store : Store :=
  ⟨[c4Note], [], [], []⟩

/-- Witness for C4 on a concrete one-note store. -/
theorem default_fusion_matches_spec_witness :
    get_recommendations c4Store (fun _ => none) (fun _ => 0) "u" none 1
      = specDefaultRanking c4Store (fun _ => none) (fun _ => 0) "u" 1 :=
  default_fusion_matches_spec c4Store (fun _ => none) (fun _ => 0) "u" none 1
    (by simp [c4Store, c4Note])
    (by intro n hn; simp only [c4Store] at hn; simp at hn; subst hn; norm_num [c4Note])
    (by intro n hn; simp only [c4Store] at hn; simp at hn; subst hn; norm_num [c4Note])

end NHRE
